import Mathlib

/-!
Verification of the CLMM pool engine in src/pool.py.

The Python class Pool is embedded shallowly: its mutable attributes become the
fields of the structure PoolState, every method becomes a pure function that
takes the state (and returns the updated state where the method mutates), the
Python dict of ticks becomes an insertion-ordered association list (Python
dicts preserve insertion order; assignment to an existing key keeps its
position, deletion removes the entry), and the Python set tickBitmap becomes a
Finset of tick indices.  Python integers are unbounded, so they are embedded
as Int; the floor-division operator // is Int.fdiv.

Two helpers of the source, tickToSqrtPrice and sqrtPriceToTick, are computed
with IEEE-754 double arithmetic (math.sqrt, math.log, float power).  The
embedding abstracts the two conversions as the fields of a FloatConv
parameter: every theorem below about the swap path holds for an arbitrary
pair of conversion functions, which covers in particular the floating-point
pair of the source.  The float field feeRate is embedded as the exact
rational value held by the double; where the source computes
int(round(feeRate * 1_000_000)) the model applies round-half-even (the
semantics of Python round) to the exact rational product, which agrees with
the double computation at every concrete feeRate used in a theorem below.
-/

/-- Q64.64 scaling constant, 2 to the 64, as in the source. -/
def Q64 : Int := 2 ^ 64

/-- Per-tick record, mirroring the TickData TypedDict of the source. -/
structure TickData where
  liquidityNet : Int
  liquidityGross : Int
  feeGrowthOutside0X64 : Int
  feeGrowthOutside1X64 : Int
deriving DecidableEq, Repr

/-- Validation counters, mirroring the validationStats dict of Pool.__init__. -/
structure ValidationStats where
  totalSwaps : Int
  amountOutMismatches : Int
  feeMismatches : Int
  protocolFeeMismatches : Int
  totalAmountOutDifference : Int
  totalFeeDifference : Int
  totalProtocolFeeDifference : Int
  exactMatches : Int
deriving DecidableEq, Repr

/-- The mutable attributes of the Python Pool object. -/
@[ext]
structure PoolState where
  reserveA : Int
  reserveB : Int
  sqrtPriceX64 : Int
  liquidity : Int
  tickCurrent : Int
  feeRatePpm : Int
  tickSpacing : Int
  feeRate : ℚ
  protocolFeeShareNumerator : Int
  protocolFeeShareDenominator : Int
  ticks : List (Int × TickData)
  tickBitmap : Finset Int
  feeGrowthGlobal0X64 : Int
  feeGrowthGlobal1X64 : Int
  totalSwapFee0 : Int
  totalSwapFee1 : Int
  validationStats : ValidationStats
deriving DecidableEq

/-- The floating-point tick conversions of the source, abstracted as
parameters (Pool.tickToSqrtPrice and Pool.sqrtPriceToTick). -/
structure FloatConv where
  tickToSqrtPrice : Int → Int
  sqrtPriceToTick : Int → Int

/-- Validation counters of a freshly constructed Pool: all zero. -/
def initialValidationStats : ValidationStats :=
  ⟨0, 0, 0, 0, 0, 0, 0, 0⟩

/-- Pool.__init__(feeRatePpm, tickSpacing). -/
def mkPool (feeRatePpm tickSpacing : Int) : PoolState where
  reserveA := 0
  reserveB := 0
  sqrtPriceX64 := 0
  liquidity := 0
  tickCurrent := 0
  feeRatePpm := feeRatePpm
  tickSpacing := tickSpacing
  feeRate := (feeRatePpm : ℚ) / 1000000
  protocolFeeShareNumerator := 1
  protocolFeeShareDenominator := 5
  ticks := []
  tickBitmap := ∅
  feeGrowthGlobal0X64 := 0
  feeGrowthGlobal1X64 := 0
  totalSwapFee0 := 0
  totalSwapFee1 := 0
  validationStats := initialValidationStats

/-- Python round(): round-half-even, applied to the exact rational value. -/
def pyRound (q : ℚ) : Int :=
  if q - (⌊q⌋ : ℚ) < 1 / 2 then ⌊q⌋
  else if 1 / 2 < q - (⌊q⌋ : ℚ) then ⌊q⌋ + 1
  else if ⌊q⌋ % 2 = 0 then ⌊q⌋ else ⌊q⌋ + 1

/-- Fee triple returned by Pool.calculateFees. -/
structure Fees where
  totalFee : Int
  lpFee : Int
  protocolFee : Int
deriving DecidableEq, Repr

/-- The local ppm of Pool.calculateFees: feeRatePpm when positive, otherwise
int(round(feeRate * 1_000_000)). -/
def effectivePpm (p : PoolState) : Int :=
  if p.feeRatePpm > 0 then p.feeRatePpm else pyRound (p.feeRate * 1000000)

/-- The local rawFee of Pool.calculateFees:
(amountIn * ppm + 1_000_000 - 1) // 1_000_000. -/
def rawFee (p : PoolState) (amountIn : Int) : Int :=
  Int.fdiv (amountIn * effectivePpm p + 1000000 - 1) 1000000

/-- The local lpFee of Pool.calculateFees:
(rawFee * 4 + 5 - 1) // 5, raised to 1 when below 1. -/
def lpFeeOf (p : PoolState) (amountIn : Int) : Int :=
  if Int.fdiv (rawFee p amountIn * 4 + 5 - 1) 5 < 1 then 1
  else Int.fdiv (rawFee p amountIn * 4 + 5 - 1) 5

/-- The local protocolFee of Pool.calculateFees:
rawFee - lpFee, clamped at 0. -/
def protocolFeeOf (p : PoolState) (amountIn : Int) : Int :=
  if rawFee p amountIn - lpFeeOf p amountIn < 0 then 0
  else rawFee p amountIn - lpFeeOf p amountIn

/-- Pool.calculateFees(amountIn). -/
def calculateFees (p : PoolState) (amountIn : Int) : Fees :=
  if amountIn ≤ 0 then ⟨0, 0, 0⟩
  else if effectivePpm p ≤ 0 then ⟨0, 0, 0⟩
  else if rawFee p amountIn ≤ 0 then ⟨0, 0, 0⟩
  else ⟨lpFeeOf p amountIn + protocolFeeOf p amountIn,
        lpFeeOf p amountIn, protocolFeeOf p amountIn⟩

/-- Lookup in the insertion-ordered association list embedding a Python
dict. -/
def dictLookup : List (Int × TickData) → Int → Option TickData
  | [], _ => none
  | (k', v) :: rest, k => if k' = k then some v else dictLookup rest k

/-- Assignment to an existing key of a Python dict: the entry keeps its
position and receives the new value. -/
def dictSet : List (Int × TickData) → Int → TickData → List (Int × TickData)
  | [], _, _ => []
  | (k', v') :: rest, k, v =>
      if k' = k then (k, v) :: dictSet rest k v else (k', v') :: dictSet rest k v

/-- Deletion of a key of a Python dict (del). -/
def dictDel : List (Int × TickData) → Int → List (Int × TickData)
  | [], _ => []
  | (k', v') :: rest, k =>
      if k' = k then dictDel rest k else (k', v') :: dictDel rest k

/-- Assignment to a possibly absent key of a Python dict: overwrite in place
when present, append otherwise (used by Pool.deserialize). -/
def dictInsert (l : List (Int × TickData)) (k : Int) (v : TickData) :
    List (Int × TickData) :=
  if (dictLookup l k).isSome then dictSet l k v else l ++ [(k, v)]

/-- First step of Pool.updateTickData: if the tick is absent, an all-zero
entry is appended to the dict. -/
def ticksWithEntry (p : PoolState) (tick : Int) : List (Int × TickData) :=
  if (dictLookup p.ticks tick).isSome then p.ticks
  else p.ticks ++ [(tick, ⟨0, 0, 0, 0⟩)]

/-- The entry Pool.updateTickData operates on: the stored entry, or the
all-zero entry just created for an absent tick. -/
def currentTickData (p : PoolState) (tick : Int) : TickData :=
  (dictLookup p.ticks tick).getD ⟨0, 0, 0, 0⟩

/-- The in-place delta application of Pool.updateTickData:
liquidityNet += netDelta and liquidityGross += grossDelta. -/
def tickAfter (td : TickData) (netDelta grossDelta : Int) : TickData :=
  { td with liquidityNet := td.liquidityNet + netDelta,
            liquidityGross := td.liquidityGross + grossDelta }

/-- The clamp of Pool.updateTickData: a negative liquidityGross is reset to
0. -/
def clampGross (td : TickData) : TickData :=
  if td.liquidityGross < 0 then { td with liquidityGross := 0 } else td

/-- Pool.updateTickData(tick, netDelta, grossDelta). -/
def updateTickData (p : PoolState) (tick netDelta grossDelta : Int) : PoolState :=
  if (tickAfter (currentTickData p tick) netDelta grossDelta).liquidityGross ≤ 0
      ∧ (tickAfter (currentTickData p tick) netDelta grossDelta).liquidityNet = 0 then
    { p with ticks := dictDel (ticksWithEntry p tick) tick,
             tickBitmap := p.tickBitmap.erase tick }
  else
    { p with
        ticks := dictSet (ticksWithEntry p tick) tick
          (clampGross (tickAfter (currentTickData p tick) netDelta grossDelta)),
        tickBitmap := insert tick p.tickBitmap }

/-- The local deltaAbs of Pool.applyLiquidityDelta. -/
def deltaAbsOf (liquidityDelta : Int) : Int :=
  if liquidityDelta ≥ 0 then liquidityDelta else -liquidityDelta

/-- The local grossDelta of Pool.applyLiquidityDelta: deltaAbs for a
non-negative delta and -deltaAbs otherwise (hence equal to liquidityDelta
itself). -/
def grossDeltaOf (liquidityDelta : Int) : Int :=
  if liquidityDelta ≥ 0 then deltaAbsOf liquidityDelta else -deltaAbsOf liquidityDelta

/-- Tail of Pool.applyLiquidityDelta: when the current tick lies in
the half-open range, the active liquidity is adjusted by the delta and
clamped at 0. -/
def liquidityClampStep (p : PoolState)
    (tickLower tickUpper liquidityDelta : Int) : PoolState :=
  if p.tickCurrent ≥ tickLower ∧ p.tickCurrent < tickUpper then
    { p with liquidity :=
        if p.liquidity + liquidityDelta < 0 then 0
        else p.liquidity + liquidityDelta }
  else p

/-- Pool.applyLiquidityDelta(tickLower, tickUpper, liquidityDelta). -/
def applyLiquidityDelta (p : PoolState)
    (tickLower tickUpper liquidityDelta : Int) : PoolState :=
  if liquidityDelta = 0 then p
  else
    liquidityClampStep
      (updateTickData
        (updateTickData p tickLower liquidityDelta (grossDeltaOf liquidityDelta))
        tickUpper (-liquidityDelta) (grossDeltaOf liquidityDelta))
      tickLower tickUpper liquidityDelta

/-- Pool.submod: saturating subtraction. -/
def submod (a b : Int) : Int :=
  if a - b < 0 then 0 else a - b

/-- Pool.mulDivRoundingDown(a, b, denominator). -/
def mulDivRoundingDown (a b denominator : Int) : Int :=
  if denominator = 0 ∨ a = 0 ∨ b = 0 then 0 else Int.fdiv (a * b) denominator

/-- The per-token feeGrowthOutside selector of Pool.calculateFeeGrowthInside. -/
def feeGrowthOutsideOf (td : TickData) (tokenIndex : Int) : Int :=
  if tokenIndex = 0 then td.feeGrowthOutside0X64 else td.feeGrowthOutside1X64

/-- The per-token global accumulator selector of
Pool.calculateFeeGrowthInside. -/
def globalFeeGrowthOf (p : PoolState) (tokenIndex : Int) : Int :=
  if tokenIndex = 0 then p.feeGrowthGlobal0X64 else p.feeGrowthGlobal1X64

/-- Pool.calculateFeeGrowthInside(tickLower, tickUpper, tokenIndex). -/
def calculateFeeGrowthInside (p : PoolState)
    (tickLower tickUpper tokenIndex : Int) : Int :=
  match dictLookup p.ticks tickLower, dictLookup p.ticks tickUpper with
  | some lowerData, some upperData =>
      if p.tickCurrent < tickLower then
        submod (feeGrowthOutsideOf lowerData tokenIndex)
          (feeGrowthOutsideOf upperData tokenIndex)
      else if p.tickCurrent ≥ tickUpper then
        submod (feeGrowthOutsideOf upperData tokenIndex)
          (feeGrowthOutsideOf lowerData tokenIndex)
      else
        submod (submod (globalFeeGrowthOf p tokenIndex)
            (feeGrowthOutsideOf lowerData tokenIndex))
          (feeGrowthOutsideOf upperData tokenIndex)
  | _, _ => 0

/-- Pool.getFeesAtTick(tick), returning the pair (fee0, fee1). -/
def getFeesAtTick (p : PoolState) (tick : Int) : Int × Int :=
  match dictLookup p.ticks tick with
  | none => (0, 0)
  | some td =>
      (Int.fdiv (td.liquidityGross * calculateFeeGrowthInside p tick tick 0) Q64,
       Int.fdiv (td.liquidityGross * calculateFeeGrowthInside p tick tick 1) Q64)

/-- Tick-book consistency: a tick is a key of the ticks dict exactly when it
is a member of the tickBitmap index. -/
def TickInv (p : PoolState) : Prop :=
  ∀ t : Int, (dictLookup p.ticks t).isSome ↔ t ∈ p.tickBitmap

/-- Concrete pool showing the feeRate fallback: feeRatePpm is 0 but the float
feeRate is one half (a value the double holds and multiplies exactly). -/
def cexPoolC3 : PoolState :=
  { mkPool 0 60 with feeRate := 1 / 2 }

/-- Pool with feeRatePpm = 0 and float feeRate = 0.0. -/
def zeroFeePool : PoolState :=
  { mkPool 0 60 with feeRate := 0 }

/-- Concrete pool with a fee rate above 100 percent: feeRatePpm = 2_000_000. -/
def cexPoolC4 : PoolState := mkPool 2000000 60

/-- Concrete pool for C2: ticks 5 and 10 carry liquidityGross 2000 from an
earlier deposit of 2000 over the range 5..10, with the current tick at 7. -/
def cexPoolC2 : PoolState :=
  { mkPool 100 60 with
      tickCurrent := 7,
      liquidity := 1002000,
      ticks := [(5, ⟨2000, 2000, 0, 0⟩), (10, ⟨-2000, 2000, 0, 0⟩)],
      tickBitmap := {5, 10} }

/-- Pool.updateFeeGrowth(feeAmount, zeroForOne): distributes a fee amount to
the per-liquidity global accumulator of the input token; no-op when the
active liquidity is not positive. -/
def updateFeeGrowth (p : PoolState) (feeAmount : Int) (zeroForOne : Bool) :
    PoolState :=
  if p.liquidity > 0 then
    if zeroForOne then
      { p with feeGrowthGlobal0X64 :=
          p.feeGrowthGlobal0X64 + Int.fdiv (feeAmount * Q64) p.liquidity }
    else
      { p with feeGrowthGlobal1X64 :=
          p.feeGrowthGlobal1X64 + Int.fdiv (feeAmount * Q64) p.liquidity }
  else p

/-- Pool.updateFeeGrowthOutside(tick, zeroForOne): snapshots the input-token
global accumulator into the tick entry, when the tick is present. -/
def updateFeeGrowthOutside (p : PoolState) (tick : Int) (zeroForOne : Bool) :
    PoolState :=
  match dictLookup p.ticks tick with
  | none => p
  | some td =>
      if zeroForOne then
        { p with
            ticks :=
              dictSet p.ticks tick
                ({ td with feeGrowthOutside0X64 := p.feeGrowthGlobal0X64 }) }
      else
        { p with
            ticks :=
              dictSet p.ticks tick
                ({ td with feeGrowthOutside1X64 := p.feeGrowthGlobal1X64 }) }

/-- Pool.updateTickFeeGrowthForFlashSwap: overwrites both outside-growth
slots of every tick with the current globals. -/
def updateTickFeeGrowthForFlashSwap (p : PoolState) : PoolState :=
  { p with ticks := p.ticks.map (fun kv =>
      (kv.1, { kv.2 with feeGrowthOutside0X64 := p.feeGrowthGlobal0X64,
                         feeGrowthOutside1X64 := p.feeGrowthGlobal1X64 })) }

/-- The per-side fee of Pool.applyRepayFlashSwap: paid - debt when positive
overpayment, 0 otherwise. -/
def flashFee (debt paid : Int) : Int :=
  if paid > debt then paid - debt else 0

/-- The token-0 fee credit of Pool.applyRepayFlashSwap: distribute through
updateFeeGrowth, then add to totalSwapFee0. -/
def creditFeeX (p : PoolState) (feeX : Int) : PoolState :=
  if feeX > 0 then
    { updateFeeGrowth p feeX true with
        totalSwapFee0 := (updateFeeGrowth p feeX true).totalSwapFee0 + feeX }
  else p

/-- The token-1 fee credit of Pool.applyRepayFlashSwap. -/
def creditFeeY (p : PoolState) (feeY : Int) : PoolState :=
  if feeY > 0 then
    { updateFeeGrowth p feeY false with
        totalSwapFee1 := (updateFeeGrowth p feeY false).totalSwapFee1 + feeY }
  else p

/-- The optional reserve replacement of Pool.applyRepayFlashSwap. -/
def setReserves (p : PoolState) (reserveX reserveY : Option Int) : PoolState :=
  { p with reserveA := reserveX.getD p.reserveA,
           reserveB := reserveY.getD p.reserveB }

/-- Pool.applyRepayFlashSwap(amountXDebt, amountYDebt, paidX, paidY,
reserveX, reserveY). -/
def applyRepayFlashSwap (p : PoolState)
    (amountXDebt amountYDebt paidX paidY : Int)
    (reserveX reserveY : Option Int) : PoolState :=
  updateTickFeeGrowthForFlashSwap
    (setReserves
      (creditFeeY (creditFeeX p (flashFee amountXDebt paidX))
        (flashFee amountYDebt paidY))
      reserveX reserveY)

/-- Pool.getNextTick(currentTick, zeroForOne): the source sorts the bitmap
and takes the first element, i.e. the maximum strictly below (descending) or
the minimum strictly above (ascending) the current tick. -/
def getNextTick (p : PoolState) (currentTick : Int) (zeroForOne : Bool) :
    Option Int :=
  if zeroForOne then
    if h : (p.tickBitmap.filter (fun t => t < currentTick)).Nonempty then
      some ((p.tickBitmap.filter (fun t => t < currentTick)).max' h)
    else none
  else
    if h : (p.tickBitmap.filter (fun t => currentTick < t)).Nonempty then
      some ((p.tickBitmap.filter (fun t => currentTick < t)).min' h)
    else none

/-- Pool.calculateMaxSwapAtPrice(currentSqrtPriceX64, nextTick, zeroForOne).
The tick conversion is the FloatConv parameter; the Python guard
`if Q64 != 0` on the ascending side is vacuous and dropped. -/
def calculateMaxSwapAtPrice (C : FloatConv) (p : PoolState)
    (currentSqrtPriceX64 nextTick : Int) (zeroForOne : Bool) : Int :=
  if zeroForOne then
    if currentSqrtPriceX64 * C.tickToSqrtPrice nextTick = 0 then 0
    else
      Int.fdiv
        (p.liquidity * (currentSqrtPriceX64 - C.tickToSqrtPrice nextTick) * Q64)
        (currentSqrtPriceX64 * C.tickToSqrtPrice nextTick)
  else
    Int.fdiv (p.liquidity * (C.tickToSqrtPrice nextTick - currentSqrtPriceX64)) Q64

/-- The descending new price of Pool.swapAtPrice:
L * P * Q64 // (L * Q64 + amountIn * P), or P when the denominator is 0. -/
def newSqrtPriceDown (p : PoolState) (amountIn sqrtPriceX64 : Int) : Int :=
  if p.liquidity * Q64 + amountIn * sqrtPriceX64 = 0 then sqrtPriceX64
  else Int.fdiv (p.liquidity * sqrtPriceX64 * Q64)
    (p.liquidity * Q64 + amountIn * sqrtPriceX64)

/-- The ascending new price of Pool.swapAtPrice:
P + amountIn * Q64 // L. -/
def newSqrtPriceUp (p : PoolState) (amountIn sqrtPriceX64 : Int) : Int :=
  sqrtPriceX64 + Int.fdiv (amountIn * Q64) p.liquidity

/-- Pool.swapAtPrice(amountIn, sqrtPriceX64, zeroForOne): the pair
(amountOut, newSqrtPriceX64). -/
def swapAtPrice (p : PoolState) (amountIn sqrtPriceX64 : Int)
    (zeroForOne : Bool) : Int × Int :=
  if zeroForOne then
    if p.liquidity = 0 then (0, sqrtPriceX64)
    else
      (mulDivRoundingDown p.liquidity
        (sqrtPriceX64 - newSqrtPriceDown p amountIn sqrtPriceX64) Q64,
       newSqrtPriceDown p amountIn sqrtPriceX64)
  else
    if p.liquidity = 0 then (0, sqrtPriceX64)
    else
      (if newSqrtPriceUp p amountIn sqrtPriceX64 * sqrtPriceX64 = 0 then 0
       else Int.fdiv
         (p.liquidity * (newSqrtPriceUp p amountIn sqrtPriceX64 - sqrtPriceX64) * Q64)
         (newSqrtPriceUp p amountIn sqrtPriceX64 * sqrtPriceX64),
       newSqrtPriceUp p amountIn sqrtPriceX64)

/-- The liquidity toggle at a crossed tick in Pool.executeCLMMSwap: subtract
(descending) or add (ascending) the tick's liquidityNet, clamped at 0; no-op
when the tick has no entry. -/
def crossTickLiquidity (p : PoolState) (nextTick : Int) (zeroForOne : Bool) :
    PoolState :=
  match dictLookup p.ticks nextTick with
  | none => p
  | some td =>
      { p with liquidity :=
          if (if zeroForOne then p.liquidity - td.liquidityNet
              else p.liquidity + td.liquidityNet) < 0 then 0
          else (if zeroForOne then p.liquidity - td.liquidityNet
                else p.liquidity + td.liquidityNet) }

/-- The tick-crossing state update at the end of the loop body of
Pool.executeCLMMSwap: snapshot the outside fee growth, then toggle the
active liquidity. -/
def crossTick (p : PoolState) (nextTick : Int) (zeroForOne : Bool) : PoolState :=
  crossTickLiquidity (updateFeeGrowthOutside p nextTick zeroForOne)
    nextTick zeroForOne

/-- Result triple of the tick-walk loop of Pool.executeCLMMSwap. -/
structure SwapStep where
  amountOut : Int
  newSqrtPriceX64 : Int
  newTick : Int
deriving DecidableEq, Repr

/-- The while-loop of Pool.executeCLMMSwap, embedded with a fuel argument
bounding the number of iterations.  Every iteration that continues the loop
consumes maxAmountAtCurrentPrice ≥ 1 of the remaining input, so
remaining.toNat + 1 fuel always suffices; clmmLoop_fuel_irrelevant below
proves the result does not depend on the fuel once it is sufficient.  The
arguments after the fuel are the loop variables: the pool state mutated by
tick crossings, remainingAmount, currentSqrtPriceX64, currentTick, and the
accumulated amountOut. -/
def clmmLoop (C : FloatConv) (zeroForOne : Bool) :
    Nat → PoolState → Int → Int → Int → Int → SwapStep × PoolState
  | 0, p, _, curP, curTick, acc => (⟨acc, curP, curTick⟩, p)
  | fuel + 1, p, remaining, curP, curTick, acc =>
    if remaining ≤ 0 then (⟨acc, curP, curTick⟩, p)
    else
      match getNextTick p curTick zeroForOne with
      | none =>
          (⟨acc + (swapAtPrice p remaining curP zeroForOne).1,
            (swapAtPrice p remaining curP zeroForOne).2,
            C.sqrtPriceToTick (swapAtPrice p remaining curP zeroForOne).2⟩, p)
      | some nextTick =>
          if calculateMaxSwapAtPrice C p curP nextTick zeroForOne ≤ 0 then
            (⟨acc, curP, curTick⟩, p)
          else if remaining ≤ calculateMaxSwapAtPrice C p curP nextTick zeroForOne then
            (⟨acc + (swapAtPrice p remaining curP zeroForOne).1,
              (swapAtPrice p remaining curP zeroForOne).2,
              C.sqrtPriceToTick (swapAtPrice p remaining curP zeroForOne).2⟩, p)
          else
            clmmLoop C zeroForOne fuel
              (crossTick p nextTick zeroForOne)
              (remaining - calculateMaxSwapAtPrice C p curP nextTick zeroForOne)
              (C.tickToSqrtPrice nextTick)
              nextTick
              (acc + (swapAtPrice p
                (calculateMaxSwapAtPrice C p curP nextTick zeroForOne)
                curP zeroForOne).1)

/-- Pool.executeCLMMSwap(amountIn, zeroForOne): run the tick-walk loop from
the stored price and tick with zero accumulated output. -/
def executeCLMMSwap (C : FloatConv) (p : PoolState) (amountIn : Int)
    (zeroForOne : Bool) : SwapStep × PoolState :=
  clmmLoop C zeroForOne (amountIn.toNat + 1) p amountIn
    p.sqrtPriceX64 p.tickCurrent 0

/-- The fee bookkeeping prefix of Pool.applySwapInternal: accumulate the
total fee into totalSwapFee0/1 per direction when positive. -/
def addTotalSwapFee (p : PoolState) (totalFee : Int) (zeroForOne : Bool) :
    PoolState :=
  if totalFee > 0 then
    if zeroForOne then { p with totalSwapFee0 := p.totalSwapFee0 + totalFee }
    else { p with totalSwapFee1 := p.totalSwapFee1 + totalFee }
  else p

/-- The LP-fee distribution of Pool.applySwapInternal: updateFeeGrowth when
the LP fee is positive. -/
def addLpFeeGrowth (p : PoolState) (lpFee : Int) (zeroForOne : Bool) :
    PoolState :=
  if lpFee > 0 then updateFeeGrowth p lpFee zeroForOne else p

/-- The state after the fee bookkeeping of Pool.applySwapInternal. -/
def feeAccrualState (p : PoolState) (fees : Fees) (zeroForOne : Bool) :
    PoolState :=
  addLpFeeGrowth (addTotalSwapFee p fees.totalFee zeroForOne)
    fees.lpFee zeroForOne

/-- The local amountInAfterFee of Pool.applySwapInternal:
amountIn - totalFee when positive, else 0. -/
def netAmountIn (amountIn totalFee : Int) : Int :=
  if amountIn > totalFee then amountIn - totalFee else 0

/-- The tail of Pool.applySwapInternal: run the loop and store its final
price and tick back into the pool. -/
def runSwapLoop (C : FloatConv) (p : PoolState) (netIn : Int)
    (zeroForOne : Bool) : Int × PoolState :=
  ((executeCLMMSwap C p netIn zeroForOne).1.amountOut,
   { (executeCLMMSwap C p netIn zeroForOne).2 with
       sqrtPriceX64 := (executeCLMMSwap C p netIn zeroForOne).1.newSqrtPriceX64,
       tickCurrent := (executeCLMMSwap C p netIn zeroForOne).1.newTick })

/-- Pool.applySwapInternal(amountIn, zeroForOne, fees): returns the pair
(amountOut, updated state). -/
def applySwapInternal (C : FloatConv) (p : PoolState) (amountIn : Int)
    (zeroForOne : Bool) (fees : Fees) : Int × PoolState :=
  if amountIn ≤ 0 then (0, p)
  else if netAmountIn amountIn fees.totalFee = 0 then
    (0, feeAccrualState p fees zeroForOne)
  else
    runSwapLoop C (feeAccrualState p fees zeroForOne)
      (netAmountIn amountIn fees.totalFee) zeroForOne

/-- Pool.applySwap(amountIn, zeroForOne): returns the pair
(amountOut, updated state). -/
def applySwap (C : FloatConv) (p : PoolState) (amountIn : Int)
    (zeroForOne : Bool) : Int × PoolState :=
  applySwapInternal C p amountIn zeroForOne (calculateFees p amountIn)

/-- The totalSwaps increment at the top of Pool.applySwapWithValidation. -/
def bumpTotalSwaps (p : PoolState) : PoolState :=
  { p with validationStats :=
      { p.validationStats with
          totalSwaps := p.validationStats.totalSwaps + 1 } }

/-- The fee triple Pool.applySwapWithValidation passes to applySwapInternal:
expected values substituted for the computed ones when supplied, with
totalFee = lpFee + protocolFee. -/
def validationFees (p : PoolState) (amountIn : Int)
    (expectedFee expectedProtocolFee : Option Int) : Fees :=
  ⟨expectedFee.getD (calculateFees p amountIn).lpFee
      + expectedProtocolFee.getD (calculateFees p amountIn).protocolFee,
   expectedFee.getD (calculateFees p amountIn).lpFee,
   expectedProtocolFee.getD (calculateFees p amountIn).protocolFee⟩

/-- Whether a computed value matches an optional expected value (True when no
expectation was supplied), as in the validation dict. -/
def matchesExpected (x : Int) (e : Option Int) : Bool :=
  match e with
  | none => true
  | some v => x = v

/-- The amountOut mismatch counter update of Pool.applySwapWithValidation. -/
def recordAmountOutMismatch (p : PoolState) (amountOut : Int)
    (expectedAmountOut : Option Int) : PoolState :=
  match expectedAmountOut with
  | none => p
  | some e =>
      if amountOut = e then p
      else { p with validationStats :=
          { p.validationStats with
              amountOutMismatches := p.validationStats.amountOutMismatches + 1,
              totalAmountOutDifference :=
                p.validationStats.totalAmountOutDifference + (amountOut - e) } }

/-- The lp-fee mismatch counter update of Pool.applySwapWithValidation. -/
def recordFeeMismatch (p : PoolState) (lpFee : Int)
    (expectedFee : Option Int) : PoolState :=
  match expectedFee with
  | none => p
  | some e =>
      if lpFee = e then p
      else { p with validationStats :=
          { p.validationStats with
              feeMismatches := p.validationStats.feeMismatches + 1,
              totalFeeDifference :=
                p.validationStats.totalFeeDifference + (lpFee - e) } }

/-- The protocol-fee mismatch counter update of
Pool.applySwapWithValidation. -/
def recordProtocolFeeMismatch (p : PoolState) (protocolFee : Int)
    (expectedProtocolFee : Option Int) : PoolState :=
  match expectedProtocolFee with
  | none => p
  | some e =>
      if protocolFee = e then p
      else { p with validationStats :=
          { p.validationStats with
              protocolFeeMismatches :=
                p.validationStats.protocolFeeMismatches + 1,
              totalProtocolFeeDifference :=
                p.validationStats.totalProtocolFeeDifference
                  + (protocolFee - e) } }

/-- The exactMatches counter update of Pool.applySwapWithValidation. -/
def recordExactMatch (p : PoolState) (isExact : Bool) : PoolState :=
  if isExact then
    { p with validationStats :=
        { p.validationStats with
            exactMatches := p.validationStats.exactMatches + 1 } }
  else p

/-- The whole counter-update phase of Pool.applySwapWithValidation. -/
def validationRecordPhase (p : PoolState)
    (amountOut lpFee protocolFee : Int)
    (expectedAmountOut expectedFee expectedProtocolFee : Option Int) :
    PoolState :=
  recordExactMatch
    (recordProtocolFeeMismatch
      (recordFeeMismatch
        (recordAmountOutMismatch p amountOut expectedAmountOut)
        lpFee expectedFee)
      protocolFee expectedProtocolFee)
    (matchesExpected amountOut expectedAmountOut
      && matchesExpected lpFee expectedFee
      && matchesExpected protocolFee expectedProtocolFee)

/-- Pool.applySwapWithValidation(amountIn, zeroForOne, expectedAmountOut,
expectedFee, expectedProtocolFee): returns the pair
(amountOut, updated state). -/
def applySwapWithValidation (C : FloatConv) (p : PoolState) (amountIn : Int)
    (zeroForOne : Bool)
    (expectedAmountOut expectedFee expectedProtocolFee : Option Int) :
    Int × PoolState :=
  ((applySwapInternal C (bumpTotalSwaps p) amountIn zeroForOne
      (validationFees (bumpTotalSwaps p) amountIn expectedFee expectedProtocolFee)).1,
   validationRecordPhase
     (applySwapInternal C (bumpTotalSwaps p) amountIn zeroForOne
       (validationFees (bumpTotalSwaps p) amountIn expectedFee expectedProtocolFee)).2
     (applySwapInternal C (bumpTotalSwaps p) amountIn zeroForOne
       (validationFees (bumpTotalSwaps p) amountIn expectedFee expectedProtocolFee)).1
     (validationFees (bumpTotalSwaps p) amountIn expectedFee expectedProtocolFee).lpFee
     (validationFees (bumpTotalSwaps p) amountIn expectedFee expectedProtocolFee).protocolFee
     expectedAmountOut expectedFee expectedProtocolFee)

/-- Pool.estimateAmountOut(amountIn, zeroForOne): returns the pair
((amountOut, feeAmount), state after the call).  The source computes its
result dict from executeCLMMSwap applied to the live pool (not a copy); the
float priceImpact figure performs no state writes and is not modeled. -/
def estimateAmountOut (C : FloatConv) (p : PoolState) (amountIn : Int)
    (zeroForOne : Bool) : (Int × Int) × PoolState :=
  if netAmountIn amountIn (calculateFees p amountIn).totalFee > 0 then
    (((executeCLMMSwap C p
          (netAmountIn amountIn (calculateFees p amountIn).totalFee)
          zeroForOne).1.amountOut,
      (calculateFees p amountIn).lpFee),
     (executeCLMMSwap C p
        (netAmountIn amountIn (calculateFees p amountIn).totalFee)
        zeroForOne).2)
  else ((0, (calculateFees p amountIn).lpFee), p)

/-- Concrete tick conversions for the C1 failing input: one tick is 2^54
price units, so crossing from tick 7 to tick 10 is reachable with a 10000
input (the behaviour mirrors the magnitude of the real float conversions
near price 1). -/
def cexConvC1 : FloatConv :=
  ⟨fun t => 2 ^ 64 + t * 2 ^ 54, fun _ => 0⟩

/-- The C1 failing input: the pool of the seed tests after
applyLiquidityDelta(5, 10, 1000) with base liquidity 1_000_000, at tick 7. -/
def cexPoolC1 : PoolState :=
  { mkPool 100 60 with
      tickCurrent := 7,
      sqrtPriceX64 := 2 ^ 64 + 7 * 2 ^ 54,
      liquidity := 1001000,
      ticks := [(5, ⟨1000, 1000, 0, 0⟩), (10, ⟨-1000, 1000, 0, 0⟩)],
      tickBitmap := {5, 10} }

/-- Trivial conversions for the C6 counterexample. -/
def cexConvC6 : FloatConv :=
  ⟨fun _ => 0, fun _ => 0⟩

/-- The C6 counterexample pool: a fresh pool with fees on and zero
liquidity. -/
def cexPoolC6 : PoolState := mkPool 100 60

/-- One entry of the ticks array written by Pool.serialize.  Every numeric
field is written as a decimal digit string in the JSON text; decimal strings
round-trip Python integers exactly, so the fields are embedded as Int. -/
structure SerializedTick where
  tick : Int
  liquidityNet : Int
  liquidityGross : Int
  feeGrowthOutside0X64 : Int
  feeGrowthOutside1X64 : Int
deriving DecidableEq, Repr

/-- The JSON object written by Pool.serialize and read by Pool.deserialize.
Integer fields are decimal strings (exact), feeRate is a float (json.dumps
writes repr, which round-trips doubles exactly), tickBitmap is the list of
the set's elements (arbitrary order; only the set is observable), and the
four fields Pool.deserialize reads with .get defaults are Option-valued. -/
structure SerializedState where
  reserveA : Int
  reserveB : Int
  sqrtPriceX64 : Int
  liquidity : Int
  tickCurrent : Int
  feeRate : ℚ
  tickSpacing : Int
  feeRatePpm : Int
  protocolFeeShareNumerator : Option Int
  protocolFeeShareDenominator : Option Int
  feeGrowthGlobal0X64 : Int
  feeGrowthGlobal1X64 : Int
  totalSwapFee0 : Option Int
  totalSwapFee1 : Option Int
  ticks : List SerializedTick
  tickBitmap : Finset Int
deriving DecidableEq

/-- Pool.serialize(): the state dict, with validationStats notably absent. -/
def serialize (p : PoolState) : SerializedState where
  reserveA := p.reserveA
  reserveB := p.reserveB
  sqrtPriceX64 := p.sqrtPriceX64
  liquidity := p.liquidity
  tickCurrent := p.tickCurrent
  feeRate := p.feeRate
  tickSpacing := p.tickSpacing
  feeRatePpm := p.feeRatePpm
  protocolFeeShareNumerator := some p.protocolFeeShareNumerator
  protocolFeeShareDenominator := some p.protocolFeeShareDenominator
  feeGrowthGlobal0X64 := p.feeGrowthGlobal0X64
  feeGrowthGlobal1X64 := p.feeGrowthGlobal1X64
  totalSwapFee0 := some p.totalSwapFee0
  totalSwapFee1 := some p.totalSwapFee1
  ticks := p.ticks.map (fun kv =>
    ⟨kv.1, kv.2.liquidityNet, kv.2.liquidityGross,
      kv.2.feeGrowthOutside0X64, kv.2.feeGrowthOutside1X64⟩)
  tickBitmap := p.tickBitmap

/-- The tick-dict rebuild of Pool.deserialize: successive assignments into an
initially empty dict. -/
def rebuildTicks (l : List SerializedTick) : List (Int × TickData) :=
  l.foldl (fun acc t => dictInsert acc t.tick
    ⟨t.liquidityNet, t.liquidityGross,
      t.feeGrowthOutside0X64, t.feeGrowthOutside1X64⟩) []

/-- Pool.deserialize: a fresh Pool(feeRatePpm, tickSpacing) whose fields are
then overwritten from the serialized state; validationStats keeps the fresh
zero counters because serialize never wrote them. -/
def deserialize (s : SerializedState) : PoolState :=
  { mkPool s.feeRatePpm s.tickSpacing with
      reserveA := s.reserveA,
      reserveB := s.reserveB,
      sqrtPriceX64 := s.sqrtPriceX64,
      liquidity := s.liquidity,
      tickCurrent := s.tickCurrent,
      feeRate := s.feeRate,
      protocolFeeShareNumerator := s.protocolFeeShareNumerator.getD 1,
      protocolFeeShareDenominator := s.protocolFeeShareDenominator.getD 5,
      feeGrowthGlobal0X64 := s.feeGrowthGlobal0X64,
      feeGrowthGlobal1X64 := s.feeGrowthGlobal1X64,
      totalSwapFee0 := s.totalSwapFee0.getD 0,
      totalSwapFee1 := s.totalSwapFee1.getD 0,
      ticks := rebuildTicks s.ticks,
      tickBitmap := s.tickBitmap }

/-- The C5 counterexample pool: a fresh pool whose totalSwaps validation
counter has been bumped (as one applySwapWithValidation call does). -/
def cexPoolC5 : PoolState :=
  { mkPool 100 60 with
      validationStats := { initialValidationStats with totalSwaps := 1 } }

/-- Concrete pool with one initialized tick for the C5 witness. -/
def roundtripPool : PoolState :=
  { mkPool 100 60 with
      tickCurrent := 7,
      liquidity := 1000000,
      ticks := [(5, ⟨1000, 1000, 2, 3⟩), (10, ⟨-1000, 1000, 4, 6⟩)],
      tickBitmap := {5, 10} }

/-! Theorems. -/

theorem tickAfter_gross (td : TickData) (n g : Int) :
    (tickAfter td n g).liquidityGross = td.liquidityGross + g := rfl

theorem tickAfter_net (td : TickData) (n g : Int) :
    (tickAfter td n g).liquidityNet = td.liquidityNet + n := rfl

theorem grossDeltaOf_eq (d : Int) : grossDeltaOf d = d := by
  unfold grossDeltaOf deltaAbsOf
  split_ifs <;> omega

theorem dictLookup_cons (k' : Int) (v' : TickData)
    (rest : List (Int × TickData)) (k : Int) :
    dictLookup ((k', v') :: rest) k =
      if k' = k then some v' else dictLookup rest k := rfl

theorem dictSet_cons (k' : Int) (v' : TickData)
    (rest : List (Int × TickData)) (k : Int) (v : TickData) :
    dictSet ((k', v') :: rest) k v =
      if k' = k then (k, v) :: dictSet rest k v
      else (k', v') :: dictSet rest k v := rfl

theorem dictDel_cons (k' : Int) (v' : TickData)
    (rest : List (Int × TickData)) (k : Int) :
    dictDel ((k', v') :: rest) k =
      if k' = k then dictDel rest k else (k', v') :: dictDel rest k := rfl

theorem dictLookup_dictSet_self (l : List (Int × TickData)) (k : Int)
    (v : TickData) (h : (dictLookup l k).isSome) :
    dictLookup (dictSet l k v) k = some v := by
  induction l with
  | nil => simp [dictLookup] at h
  | cons kv rest ih =>
    obtain ⟨k', v'⟩ := kv
    rw [dictSet_cons]
    by_cases hk : k' = k
    · rw [if_pos hk, dictLookup_cons, if_pos rfl]
    · rw [if_neg hk, dictLookup_cons, if_neg hk]
      rw [dictLookup_cons, if_neg hk] at h
      exact ih h

theorem dictLookup_dictSet_ne (l : List (Int × TickData)) (k : Int)
    (v : TickData) (t : Int) (h : t ≠ k) :
    dictLookup (dictSet l k v) t = dictLookup l t := by
  induction l with
  | nil => rfl
  | cons kv rest ih =>
    obtain ⟨k', v'⟩ := kv
    rw [dictSet_cons]
    by_cases hk : k' = k
    · rw [if_pos hk, dictLookup_cons, dictLookup_cons,
        if_neg (fun ht => h ht.symm), if_neg (fun ht => h (ht.symm.trans hk)),
        ih]
    · rw [if_neg hk, dictLookup_cons, dictLookup_cons]
      by_cases ht : k' = t
      · rw [if_pos ht, if_pos ht]
      · rw [if_neg ht, if_neg ht, ih]

theorem dictLookup_dictDel_self (l : List (Int × TickData)) (k : Int) :
    dictLookup (dictDel l k) k = none := by
  induction l with
  | nil => rfl
  | cons kv rest ih =>
    obtain ⟨k', v'⟩ := kv
    rw [dictDel_cons]
    by_cases hk : k' = k
    · rw [if_pos hk]
      exact ih
    · rw [if_neg hk, dictLookup_cons, if_neg hk]
      exact ih

theorem dictLookup_dictDel_ne (l : List (Int × TickData)) (k t : Int)
    (h : t ≠ k) :
    dictLookup (dictDel l k) t = dictLookup l t := by
  induction l with
  | nil => rfl
  | cons kv rest ih =>
    obtain ⟨k', v'⟩ := kv
    rw [dictDel_cons]
    by_cases hk : k' = k
    · rw [if_pos hk, dictLookup_cons, if_neg (fun ht => h (ht.symm.trans hk)), ih]
    · rw [if_neg hk, dictLookup_cons, dictLookup_cons]
      by_cases ht : k' = t
      · rw [if_pos ht, if_pos ht]
      · rw [if_neg ht, if_neg ht, ih]

theorem dictLookup_append_none (l₁ l₂ : List (Int × TickData)) (t : Int)
    (h : dictLookup l₁ t = none) :
    dictLookup (l₁ ++ l₂) t = dictLookup l₂ t := by
  induction l₁ with
  | nil => rfl
  | cons kv rest ih =>
    obtain ⟨k', v'⟩ := kv
    rw [dictLookup_cons] at h
    by_cases ht : k' = t
    · rw [if_pos ht] at h
      exact absurd h (by simp)
    · rw [if_neg ht] at h
      rw [List.cons_append, dictLookup_cons, if_neg ht]
      exact ih h

theorem dictLookup_append_some (l₁ l₂ : List (Int × TickData)) (t : Int)
    (w : TickData) (h : dictLookup l₁ t = some w) :
    dictLookup (l₁ ++ l₂) t = some w := by
  induction l₁ with
  | nil => simp [dictLookup] at h
  | cons kv rest ih =>
    obtain ⟨k', v'⟩ := kv
    rw [dictLookup_cons] at h
    rw [List.cons_append, dictLookup_cons]
    by_cases ht : k' = t
    · rw [if_pos ht] at h
      rw [if_pos ht]
      exact h
    · rw [if_neg ht] at h
      rw [if_neg ht]
      exact ih h

theorem ticksWithEntry_lookup_self (p : PoolState) (tick : Int) :
    dictLookup (ticksWithEntry p tick) tick = some (currentTickData p tick) := by
  unfold ticksWithEntry currentTickData
  cases h : dictLookup p.ticks tick with
  | none =>
    simp only [h, Option.isSome_none, Bool.false_eq_true, if_false,
      Option.getD_none]
    rw [dictLookup_append_none _ _ _ h, dictLookup_cons, if_pos rfl]
  | some td =>
    simp [h]

theorem ticksWithEntry_lookup_ne (p : PoolState) (tick t : Int)
    (h : t ≠ tick) :
    dictLookup (ticksWithEntry p tick) t = dictLookup p.ticks t := by
  unfold ticksWithEntry
  cases hmem : (dictLookup p.ticks tick).isSome with
  | true => simp
  | false =>
    simp only [hmem, Bool.false_eq_true, if_false]
    cases ht : dictLookup p.ticks t with
    | none =>
      rw [dictLookup_append_none _ _ _ ht, dictLookup_cons,
        if_neg (fun hh => h hh.symm)]
      rfl
    | some w =>
      exact dictLookup_append_some _ _ _ _ ht

theorem updateTickData_ticks_lookup_self (p : PoolState) (tick n g : Int) :
    dictLookup (updateTickData p tick n g).ticks tick =
      if (currentTickData p tick).liquidityGross + g ≤ 0
          ∧ (currentTickData p tick).liquidityNet + n = 0 then none
      else some (clampGross (tickAfter (currentTickData p tick) n g)) := by
  unfold updateTickData
  rw [tickAfter_gross, tickAfter_net]
  split_ifs with hdead
  · exact dictLookup_dictDel_self _ _
  · have hs : (dictLookup (ticksWithEntry p tick) tick).isSome := by
      rw [ticksWithEntry_lookup_self]
      rfl
    exact dictLookup_dictSet_self _ _ _ hs

theorem updateTickData_ticks_lookup_ne (p : PoolState) (tick n g t : Int)
    (h : t ≠ tick) :
    dictLookup (updateTickData p tick n g).ticks t = dictLookup p.ticks t := by
  unfold updateTickData
  split_ifs with hdead
  · show dictLookup (dictDel (ticksWithEntry p tick) tick) t = dictLookup p.ticks t
    rw [dictLookup_dictDel_ne _ _ _ h]
    exact ticksWithEntry_lookup_ne p tick t h
  · show dictLookup (dictSet (ticksWithEntry p tick) tick
      (clampGross (tickAfter (currentTickData p tick) n g))) t = dictLookup p.ticks t
    rw [dictLookup_dictSet_ne _ _ _ _ h]
    exact ticksWithEntry_lookup_ne p tick t h

theorem updateTickData_bitmap (p : PoolState) (tick n g : Int) :
    (updateTickData p tick n g).tickBitmap =
      if (currentTickData p tick).liquidityGross + g ≤ 0
          ∧ (currentTickData p tick).liquidityNet + n = 0 then
        p.tickBitmap.erase tick
      else insert tick p.tickBitmap := by
  unfold updateTickData
  rw [tickAfter_gross, tickAfter_net]
  split_ifs <;> rfl

theorem updateTickData_liquidity (p : PoolState) (tick n g : Int) :
    (updateTickData p tick n g).liquidity = p.liquidity := by
  unfold updateTickData
  split_ifs <;> rfl

theorem updateTickData_tickCurrent (p : PoolState) (tick n g : Int) :
    (updateTickData p tick n g).tickCurrent = p.tickCurrent := by
  unfold updateTickData
  split_ifs <;> rfl

theorem TickInv_updateTickData (p : PoolState) (hp : TickInv p)
    (k n g : Int) : TickInv (updateTickData p k n g) := by
  intro t
  by_cases ht : t = k
  · subst ht
    rw [updateTickData_ticks_lookup_self, updateTickData_bitmap]
    split_ifs with hdead
    · simp
    · simp
  · rw [updateTickData_ticks_lookup_ne _ _ _ _ _ ht, updateTickData_bitmap]
    split_ifs with hdead
    · simp only [Finset.mem_erase]
      constructor
      · intro hs
        exact ⟨ht, (hp t).1 hs⟩
      · intro hm
        exact (hp t).2 hm.2
    · simp only [Finset.mem_insert]
      constructor
      · intro hs
        exact Or.inr ((hp t).1 hs)
      · intro hm
        rcases hm with hm | hm
        · exact absurd hm ht
        · exact (hp t).2 hm

theorem liquidityClampStep_ticks (p : PoolState) (a b d : Int) :
    (liquidityClampStep p a b d).ticks = p.ticks := by
  unfold liquidityClampStep
  split_ifs <;> rfl

theorem liquidityClampStep_bitmap (p : PoolState) (a b d : Int) :
    (liquidityClampStep p a b d).tickBitmap = p.tickBitmap := by
  unfold liquidityClampStep
  split_ifs <;> rfl

theorem TickInv_applyLiquidityDelta (p : PoolState) (hp : TickInv p)
    (tickLower tickUpper liquidityDelta : Int) :
    TickInv (applyLiquidityDelta p tickLower tickUpper liquidityDelta) := by
  unfold applyLiquidityDelta
  split_ifs with h0
  · exact hp
  · have h2 : TickInv (updateTickData
        (updateTickData p tickLower liquidityDelta (grossDeltaOf liquidityDelta))
        tickUpper (-liquidityDelta) (grossDeltaOf liquidityDelta)) :=
      TickInv_updateTickData _ (TickInv_updateTickData _ hp _ _ _) _ _ _
    intro t
    rw [liquidityClampStep_ticks, liquidityClampStep_bitmap]
    exact h2 t

theorem C3_counterexample :
    cexPoolC3.feeRatePpm ≤ 0 ∧ (calculateFees cexPoolC3 10000).totalFee ≠ 0 := by
  have heff : effectivePpm cexPoolC3 = 500000 := by
    norm_num [effectivePpm, cexPoolC3, mkPool, pyRound]
  refine ⟨by decide, ?_⟩
  simp only [calculateFees, rawFee, lpFeeOf, protocolFeeOf, heff]
  decide

/-- C3 (amended): if feeRatePpm ≤ 0 and the fallback round(feeRate * 10^6) is
also not positive, then calculateFees returns all-zero fees for every
amountIn.  (The original claim is false: when feeRatePpm ≤ 0 the code
consults the float feeRate, so the result is not independent of feeRate.) -/
theorem C3_fees_zero_when_ppm_nonpositive (p : PoolState) (amountIn : Int)
    (hppm : p.feeRatePpm ≤ 0) (hfall : pyRound (p.feeRate * 1000000) ≤ 0) :
    calculateFees p amountIn = ⟨0, 0, 0⟩ := by
  have heff : effectivePpm p ≤ 0 := by
    unfold effectivePpm
    rw [if_neg (by omega)]
    exact hfall
  unfold calculateFees
  by_cases h : amountIn ≤ 0
  · rw [if_pos h]
  · rw [if_neg h, if_pos heff]

/-- Witness for C3: a pool with feeRatePpm = 0 and feeRate = 0 keeps zero
fees. -/
theorem C3_fees_zero_witness :
    zeroFeePool.feeRatePpm ≤ 0 ∧
      pyRound (zeroFeePool.feeRate * 1000000) ≤ 0 ∧
      calculateFees zeroFeePool 10000 = ⟨0, 0, 0⟩ :=
  ⟨by decide, by norm_num [zeroFeePool, mkPool, pyRound],
    C3_fees_zero_when_ppm_nonpositive _ 10000 (by decide)
      (by norm_num [zeroFeePool, mkPool, pyRound])⟩

/-- C4 counterexample: with feeRatePpm = 2_000_000 the fee on amountIn = 10 is
20, so totalFee ≤ amountIn fails. -/
theorem C4_counterexample :
    (0 : Int) ≤ 10 ∧ ¬ ((calculateFees cexPoolC4 10).totalFee ≤ 10) := by
  have heff : effectivePpm cexPoolC4 = 2000000 := by
    unfold effectivePpm cexPoolC4 mkPool
    decide
  refine ⟨by decide, ?_⟩
  simp only [calculateFees, rawFee, lpFeeOf, protocolFeeOf, heff]
  decide

/-- C4 (amended): for every pool state and every amountIn ≥ 0,
lpFee + protocolFee = totalFee holds unconditionally, and
totalFee ≤ amountIn holds provided the effective ppm used by calculateFees is
at most 1_000_000 (the original, unconditional bound fails for fee rates
above 100 percent). -/
theorem C4_fee_split_conservation (p : PoolState) (amountIn : Int)
    (h : 0 ≤ amountIn) :
    (calculateFees p amountIn).lpFee + (calculateFees p amountIn).protocolFee
        = (calculateFees p amountIn).totalFee ∧
      (effectivePpm p ≤ 1000000 →
        (calculateFees p amountIn).totalFee ≤ amountIn) := by
  constructor
  · unfold calculateFees
    split_ifs <;> rfl
  · intro hppm
    unfold calculateFees
    split_ifs with h1 h2 h3
    · simpa using h
    · simpa using h
    · simpa using h
    · have hain : 0 < amountIn := by omega
      have hppm0 : 0 < effectivePpm p := by omega
      have hraw : 0 < rawFee p amountIn := by omega
      have hrawle : rawFee p amountIn ≤ amountIn := by
        unfold rawFee
        rw [Int.fdiv_eq_ediv _ (by norm_num)]
        have : amountIn * effectivePpm p ≤ amountIn * 1000000 :=
          mul_le_mul_of_nonneg_left hppm (by omega)
        omega
      have hlp : 1 ≤ lpFeeOf p amountIn ∧ lpFeeOf p amountIn ≤ rawFee p amountIn := by
        unfold lpFeeOf
        rw [Int.fdiv_eq_ediv _ (by norm_num)]
        constructor
        · split_ifs <;> omega
        · split_ifs <;> omega
      have hpr : protocolFeeOf p amountIn = rawFee p amountIn - lpFeeOf p amountIn := by
        unfold protocolFeeOf
        split_ifs <;> omega
      simp only [hpr]
      omega

/-- Witness for C4 at the seed-test input: ppm = 100, amountIn = 10000. -/
theorem C4_fee_split_conservation_witness :
    (0 : Int) ≤ 10000 ∧
      ((calculateFees (mkPool 100 60) 10000).lpFee
            + (calculateFees (mkPool 100 60) 10000).protocolFee
          = (calculateFees (mkPool 100 60) 10000).totalFee ∧
        (effectivePpm (mkPool 100 60) ≤ 1000000 →
          (calculateFees (mkPool 100 60) 10000).totalFee ≤ 10000)) :=
  ⟨by decide, C4_fee_split_conservation (mkPool 100 60) 10000 (by decide)⟩

/-- C2 counterexample: removing liquidity (liquidityDelta = -1000) from the
range 5..10 of cexPoolC2 leaves tick 5 with liquidityGross 1000, not the
2000 + 1000 = 3000 the claim predicts: the gross delta passed to updateTick
is the signed liquidityDelta, not its absolute value. -/
theorem C2_counterexample :
    (dictLookup (applyLiquidityDelta cexPoolC2 5 10 (-1000)).ticks 5).map
        TickData.liquidityGross = some 1000 ∧
      (dictLookup (applyLiquidityDelta cexPoolC2 5 10 (-1000)).ticks 5).map
          TickData.liquidityGross ≠
        some ((currentTickData cexPoolC2 5).liquidityGross + 1000) := by
  decide

/-- C2 (amended): applyLiquidityDelta calls updateTick with gross delta equal
to the signed liquidityDelta at both ticks (so liquidityGross increases by
liquidityDelta when positive and decreases by its absolute value when
negative, before clamping/deletion), while liquidityNet changes by
+liquidityDelta at tickLower and by -liquidityDelta at tickUpper. -/
theorem C2_applyLiquidityDelta_tick_updates (p : PoolState)
    (tickLower tickUpper liquidityDelta : Int)
    (hlu : tickLower ≠ tickUpper) (hd : liquidityDelta ≠ 0) :
    dictLookup (applyLiquidityDelta p tickLower tickUpper liquidityDelta).ticks
        tickLower =
      (if (currentTickData p tickLower).liquidityGross + liquidityDelta ≤ 0
          ∧ (currentTickData p tickLower).liquidityNet + liquidityDelta = 0
       then none
       else some (clampGross
         (tickAfter (currentTickData p tickLower) liquidityDelta liquidityDelta))) ∧
    dictLookup (applyLiquidityDelta p tickLower tickUpper liquidityDelta).ticks
        tickUpper =
      (if (currentTickData p tickUpper).liquidityGross + liquidityDelta ≤ 0
          ∧ (currentTickData p tickUpper).liquidityNet - liquidityDelta = 0
       then none
       else some (clampGross
         (tickAfter (currentTickData p tickUpper) (-liquidityDelta) liquidityDelta))) := by
  have hticks :
      (applyLiquidityDelta p tickLower tickUpper liquidityDelta).ticks =
        (updateTickData
          (updateTickData p tickLower liquidityDelta liquidityDelta)
          tickUpper (-liquidityDelta) liquidityDelta).ticks := by
    simp only [applyLiquidityDelta, if_neg hd, grossDeltaOf_eq]
    exact liquidityClampStep_ticks _ _ _ _
  rw [hticks]
  constructor
  · rw [updateTickData_ticks_lookup_ne _ _ _ _ _ hlu]
    exact updateTickData_ticks_lookup_self p tickLower liquidityDelta liquidityDelta
  · have hcd : currentTickData
        (updateTickData p tickLower liquidityDelta liquidityDelta) tickUpper =
        currentTickData p tickUpper := by
      unfold currentTickData
      rw [updateTickData_ticks_lookup_ne _ _ _ _ _ (Ne.symm hlu)]
    rw [updateTickData_ticks_lookup_self, hcd]
    have hnet : (currentTickData p tickUpper).liquidityNet + -liquidityDelta
        = (currentTickData p tickUpper).liquidityNet - liquidityDelta := by ring
    rw [hnet]

/-- Witness for C2 (amended) on cexPoolC2 with a positive delta. -/
theorem C2_applyLiquidityDelta_tick_updates_witness :
    (5 : Int) ≠ 10 ∧ (500 : Int) ≠ 0 ∧
      (dictLookup (applyLiquidityDelta cexPoolC2 5 10 500).ticks 5 =
        (if (currentTickData cexPoolC2 5).liquidityGross + 500 ≤ 0
            ∧ (currentTickData cexPoolC2 5).liquidityNet + 500 = 0
         then none
         else some (clampGross (tickAfter (currentTickData cexPoolC2 5) 500 500))) ∧
      dictLookup (applyLiquidityDelta cexPoolC2 5 10 500).ticks 10 =
        (if (currentTickData cexPoolC2 10).liquidityGross + 500 ≤ 0
            ∧ (currentTickData cexPoolC2 10).liquidityNet - 500 = 0
         then none
         else some (clampGross (tickAfter (currentTickData cexPoolC2 10) (-500) 500)))) :=
  ⟨by decide, by decide,
    C2_applyLiquidityDelta_tick_updates cexPoolC2 5 10 500 (by decide) (by decide)⟩

/-- C8: starting from a state where a tick is a key of ticks exactly when it
is in tickBitmap, updateTickData preserves the equivalence, the updated tick
is deleted from both exactly when its liquidityGross ≤ 0 and liquidityNet = 0
after the deltas, and applyLiquidityDelta (two updateTickData calls plus a
liquidity adjustment) preserves the equivalence as well. -/
theorem C8_tick_book_consistency (p : PoolState) (hp : TickInv p)
    (k n g tickLower tickUpper liquidityDelta : Int) :
    TickInv (updateTickData p k n g) ∧
      ((dictLookup (updateTickData p k n g).ticks k = none
          ∧ k ∉ (updateTickData p k n g).tickBitmap) ↔
        ((currentTickData p k).liquidityGross + g ≤ 0
          ∧ (currentTickData p k).liquidityNet + n = 0)) ∧
      TickInv (applyLiquidityDelta p tickLower tickUpper liquidityDelta) := by
  refine ⟨TickInv_updateTickData p hp k n g, ?_,
    TickInv_applyLiquidityDelta p hp tickLower tickUpper liquidityDelta⟩
  rw [updateTickData_ticks_lookup_self, updateTickData_bitmap]
  by_cases hdead : (currentTickData p k).liquidityGross + g ≤ 0
      ∧ (currentTickData p k).liquidityNet + n = 0
  · rw [if_pos hdead, if_pos hdead]
    simp [hdead, Finset.not_mem_erase]
  · rw [if_neg hdead, if_neg hdead]
    simp [hdead, Finset.mem_insert_self]

/-- Witness for C8: the empty pool satisfies the invariant, and the
conclusion holds there for concrete arguments. -/
theorem C8_tick_book_consistency_witness :
    TickInv (mkPool 100 60) ∧
      (TickInv (updateTickData (mkPool 100 60) 5 1000 1000) ∧
        ((dictLookup (updateTickData (mkPool 100 60) 5 1000 1000).ticks 5 = none
            ∧ 5 ∉ (updateTickData (mkPool 100 60) 5 1000 1000).tickBitmap) ↔
          ((currentTickData (mkPool 100 60) 5).liquidityGross + 1000 ≤ 0
            ∧ (currentTickData (mkPool 100 60) 5).liquidityNet + 1000 = 0)) ∧
        TickInv (applyLiquidityDelta (mkPool 100 60) 5 10 1000)) := by
  have hp : TickInv (mkPool 100 60) := by
    intro t
    simp [mkPool, dictLookup]
  exact ⟨hp, C8_tick_book_consistency (mkPool 100 60) hp 5 1000 1000 5 10 1000⟩

theorem submod_self (x : Int) : submod x x = 0 := by
  simp [submod]

/-- C10: getFeesAtTick always returns the pair (0, 0): the fee-growth-inside
of the empty range from a tick to itself subtracts a snapshot from itself in
both reachable branches, saturating to zero. -/
theorem C10_getFeesAtTick_zero (p : PoolState) (tick : Int) :
    getFeesAtTick p tick = (0, 0) := by
  unfold getFeesAtTick
  cases h : dictLookup p.ticks tick with
  | none => rfl
  | some td =>
    have hin : ∀ i : Int, calculateFeeGrowthInside p tick tick i = 0 := by
      intro i
      simp only [calculateFeeGrowthInside, h]
      split_ifs with h1 h2
      · exact submod_self _
      · exact submod_self _
      · omega
    show (Int.fdiv (td.liquidityGross * calculateFeeGrowthInside p tick tick 0) Q64,
        Int.fdiv (td.liquidityGross * calculateFeeGrowthInside p tick tick 1) Q64) = (0, 0)
    rw [hin 0, hin 1, mul_zero]
    rw [Int.fdiv_eq_ediv _ (by norm_num [Q64])]
    simp

theorem updateFeeGrowth_liquidity (p : PoolState) (f : Int) (z : Bool) :
    (updateFeeGrowth p f z).liquidity = p.liquidity := by
  unfold updateFeeGrowth
  split_ifs <;> rfl

theorem updateFeeGrowth_nonpos (p : PoolState) (f : Int) (z : Bool)
    (hp : p.liquidity ≤ 0) : updateFeeGrowth p f z = p := by
  unfold updateFeeGrowth
  rw [if_neg (by omega)]

theorem updateFeeGrowthOutside_liquidity (p : PoolState) (t : Int) (z : Bool) :
    (updateFeeGrowthOutside p t z).liquidity = p.liquidity := by
  unfold updateFeeGrowthOutside
  cases h : dictLookup p.ticks t with
  | none => rfl
  | some td =>
    dsimp only
    split_ifs <;> rfl

theorem crossTickLiquidity_nonneg (p : PoolState) (t : Int) (z : Bool)
    (hp : 0 ≤ p.liquidity) : 0 ≤ (crossTickLiquidity p t z).liquidity := by
  unfold crossTickLiquidity
  cases h : dictLookup p.ticks t with
  | none => exact hp
  | some td =>
    dsimp only
    split_ifs <;> omega

theorem crossTick_liquidity_nonneg (p : PoolState) (t : Int) (z : Bool)
    (hp : 0 ≤ p.liquidity) : 0 ≤ (crossTick p t z).liquidity := by
  unfold crossTick
  apply crossTickLiquidity_nonneg
  rw [updateFeeGrowthOutside_liquidity]
  exact hp

theorem swapAtPrice_liquidity_zero (p : PoolState) (a s : Int) (z : Bool)
    (hp : p.liquidity = 0) : swapAtPrice p a s z = (0, s) := by
  simp [swapAtPrice, hp]

theorem calculateMaxSwapAtPrice_liquidity_zero (C : FloatConv) (p : PoolState)
    (cp nt : Int) (z : Bool) (hp : p.liquidity = 0) :
    calculateMaxSwapAtPrice C p cp nt z ≤ 0 := by
  simp [calculateMaxSwapAtPrice, hp, Int.zero_fdiv]

theorem clmmLoop_liquidity_nonneg (C : FloatConv) (z : Bool) (fuel : Nat) :
    ∀ (p : PoolState) (r cp ct acc : Int), 0 ≤ p.liquidity →
      0 ≤ (clmmLoop C z fuel p r cp ct acc).2.liquidity := by
  induction fuel with
  | zero =>
    intro p r cp ct acc hp
    exact hp
  | succ n ih =>
    intro p r cp ct acc hp
    by_cases hr : r ≤ 0
    · simp only [clmmLoop, if_pos hr]
      exact hp
    · simp only [clmmLoop, if_neg hr]
      cases hnt : getNextTick p ct z with
      | none => exact hp
      | some nt =>
        dsimp only
        by_cases hm : calculateMaxSwapAtPrice C p cp nt z ≤ 0
        · rw [if_pos hm]
          exact hp
        · rw [if_neg hm]
          by_cases hr2 : r ≤ calculateMaxSwapAtPrice C p cp nt z
          · rw [if_pos hr2]
            exact hp
          · rw [if_neg hr2]
            exact ih _ _ _ _ _ (crossTick_liquidity_nonneg _ _ _ hp)

theorem clmmLoop_liquidity_zero (C : FloatConv) (z : Bool) (fuel : Nat)
    (p : PoolState) (r cp ct acc : Int) (hp : p.liquidity = 0) :
    (clmmLoop C z fuel p r cp ct acc).2 = p ∧
      (clmmLoop C z fuel p r cp ct acc).1.amountOut = acc ∧
      (clmmLoop C z fuel p r cp ct acc).1.newSqrtPriceX64 = cp ∧
      ((clmmLoop C z fuel p r cp ct acc).1.newTick = ct ∨
        (clmmLoop C z fuel p r cp ct acc).1.newTick = C.sqrtPriceToTick cp) := by
  cases fuel with
  | zero => exact ⟨rfl, rfl, rfl, Or.inl rfl⟩
  | succ n =>
    by_cases hr : r ≤ 0
    · simp only [clmmLoop, if_pos hr]
      simp
    · simp only [clmmLoop, if_neg hr]
      cases hnt : getNextTick p ct z with
      | none =>
        dsimp only
        rw [swapAtPrice_liquidity_zero p r cp z hp]
        exact ⟨rfl, by simp, rfl, Or.inr rfl⟩
      | some nt =>
        dsimp only
        rw [if_pos (calculateMaxSwapAtPrice_liquidity_zero C p cp nt z hp)]
        exact ⟨rfl, rfl, rfl, Or.inl rfl⟩

theorem addTotalSwapFee_frame (p : PoolState) (f : Int) (z : Bool) :
    (addTotalSwapFee p f z).liquidity = p.liquidity ∧
      (addTotalSwapFee p f z).sqrtPriceX64 = p.sqrtPriceX64 ∧
      (addTotalSwapFee p f z).tickCurrent = p.tickCurrent ∧
      (addTotalSwapFee p f z).ticks = p.ticks ∧
      (addTotalSwapFee p f z).tickBitmap = p.tickBitmap ∧
      (addTotalSwapFee p f z).feeGrowthGlobal0X64 = p.feeGrowthGlobal0X64 ∧
      (addTotalSwapFee p f z).feeGrowthGlobal1X64 = p.feeGrowthGlobal1X64 := by
  unfold addTotalSwapFee
  split_ifs <;> exact ⟨rfl, rfl, rfl, rfl, rfl, rfl, rfl⟩

theorem addTotalSwapFee_liquidity (p : PoolState) (f : Int) (z : Bool) :
    (addTotalSwapFee p f z).liquidity = p.liquidity :=
  (addTotalSwapFee_frame p f z).1

theorem feeAccrualState_of_liquidity_zero (p : PoolState) (fees : Fees)
    (z : Bool) (hp : p.liquidity = 0) :
    feeAccrualState p fees z = addTotalSwapFee p fees.totalFee z := by
  unfold feeAccrualState addLpFeeGrowth
  split_ifs with h
  · apply updateFeeGrowth_nonpos
    rw [addTotalSwapFee_liquidity, hp]
  · rfl

theorem feeAccrualState_liquidity (p : PoolState) (fees : Fees) (z : Bool) :
    (feeAccrualState p fees z).liquidity = p.liquidity := by
  unfold feeAccrualState addLpFeeGrowth
  split_ifs with h
  · rw [updateFeeGrowth_liquidity, addTotalSwapFee_liquidity]
  · rw [addTotalSwapFee_liquidity]

theorem applySwapInternal_liquidity_nonneg (C : FloatConv) (p : PoolState)
    (amountIn : Int) (z : Bool) (fees : Fees) (hp : 0 ≤ p.liquidity) :
    0 ≤ (applySwapInternal C p amountIn z fees).2.liquidity := by
  unfold applySwapInternal
  split_ifs with h1 h2
  · exact hp
  · rw [show ((0 : Int), feeAccrualState p fees z).2 = feeAccrualState p fees z from rfl,
      feeAccrualState_liquidity]
    exact hp
  · unfold runSwapLoop executeCLMMSwap
    have := clmmLoop_liquidity_nonneg C z
      ((netAmountIn amountIn fees.totalFee).toNat + 1)
      (feeAccrualState p fees z) (netAmountIn amountIn fees.totalFee)
      (feeAccrualState p fees z).sqrtPriceX64
      (feeAccrualState p fees z).tickCurrent 0
      (by rw [feeAccrualState_liquidity]; exact hp)
    exact this

theorem bumpTotalSwaps_liquidity (p : PoolState) :
    (bumpTotalSwaps p).liquidity = p.liquidity := rfl

theorem recordAmountOutMismatch_liquidity (p : PoolState) (x : Int)
    (e : Option Int) : (recordAmountOutMismatch p x e).liquidity = p.liquidity := by
  unfold recordAmountOutMismatch
  cases e with
  | none => rfl
  | some v =>
    dsimp only
    split_ifs <;> rfl

theorem recordFeeMismatch_liquidity (p : PoolState) (x : Int)
    (e : Option Int) : (recordFeeMismatch p x e).liquidity = p.liquidity := by
  unfold recordFeeMismatch
  cases e with
  | none => rfl
  | some v =>
    dsimp only
    split_ifs <;> rfl

theorem recordProtocolFeeMismatch_liquidity (p : PoolState) (x : Int)
    (e : Option Int) :
    (recordProtocolFeeMismatch p x e).liquidity = p.liquidity := by
  unfold recordProtocolFeeMismatch
  cases e with
  | none => rfl
  | some v =>
    dsimp only
    split_ifs <;> rfl

theorem recordExactMatch_liquidity (p : PoolState) (b : Bool) :
    (recordExactMatch p b).liquidity = p.liquidity := by
  unfold recordExactMatch
  split_ifs <;> rfl

theorem validationRecordPhase_liquidity (p : PoolState)
    (amountOut lpFee protocolFee : Int) (e1 e2 e3 : Option Int) :
    (validationRecordPhase p amountOut lpFee protocolFee e1 e2 e3).liquidity
      = p.liquidity := by
  unfold validationRecordPhase
  rw [recordExactMatch_liquidity, recordProtocolFeeMismatch_liquidity,
    recordFeeMismatch_liquidity, recordAmountOutMismatch_liquidity]

theorem creditFeeX_liquidity (p : PoolState) (f : Int) :
    (creditFeeX p f).liquidity = p.liquidity := by
  unfold creditFeeX
  split_ifs with h
  · show (updateFeeGrowth p f true).liquidity = p.liquidity
    exact updateFeeGrowth_liquidity p f true
  · rfl

theorem creditFeeY_liquidity (p : PoolState) (f : Int) :
    (creditFeeY p f).liquidity = p.liquidity := by
  unfold creditFeeY
  split_ifs with h
  · show (updateFeeGrowth p f false).liquidity = p.liquidity
    exact updateFeeGrowth_liquidity p f false
  · rfl

theorem applyRepayFlashSwap_liquidity (p : PoolState)
    (amountXDebt amountYDebt paidX paidY : Int)
    (reserveX reserveY : Option Int) :
    (applyRepayFlashSwap p amountXDebt amountYDebt paidX paidY
      reserveX reserveY).liquidity = p.liquidity := by
  unfold applyRepayFlashSwap updateTickFeeGrowthForFlashSwap setReserves
  rw [show ∀ q : PoolState, ∀ l, ({ q with ticks := l } : PoolState).liquidity
    = q.liquidity from fun _ _ => rfl]
  rw [show ∀ q : PoolState, ∀ a b, ({ q with reserveA := a, reserveB := b } :
    PoolState).liquidity = q.liquidity from fun _ _ _ => rfl]
  rw [creditFeeY_liquidity, creditFeeX_liquidity]

/-- C7: starting from non-negative active liquidity, every public mutating
operation (applyLiquidityDelta, applySwap, applySwapWithValidation,
applyRepayFlashSwap) leaves the active liquidity non-negative; every
adjustment is clamped at 0. -/
theorem C7_liquidity_nonneg (C : FloatConv) (p : PoolState)
    (h : 0 ≤ p.liquidity)
    (tickLower tickUpper liquidityDelta amountIn : Int) (zeroForOne : Bool)
    (expectedAmountOut expectedFee expectedProtocolFee : Option Int)
    (amountXDebt amountYDebt paidX paidY : Int)
    (reserveX reserveY : Option Int) :
    0 ≤ (applyLiquidityDelta p tickLower tickUpper liquidityDelta).liquidity ∧
      0 ≤ (applySwap C p amountIn zeroForOne).2.liquidity ∧
      0 ≤ (applySwapWithValidation C p amountIn zeroForOne expectedAmountOut
            expectedFee expectedProtocolFee).2.liquidity ∧
      0 ≤ (applyRepayFlashSwap p amountXDebt amountYDebt paidX paidY
            reserveX reserveY).liquidity := by
  refine ⟨?_, ?_, ?_, ?_⟩
  · unfold applyLiquidityDelta
    split_ifs with h0
    · exact h
    · unfold liquidityClampStep
      split_ifs with h1 h2
      · exact le_refl 0
      · dsimp only
        omega
      · rw [updateTickData_liquidity, updateTickData_liquidity]
        exact h
  · exact applySwapInternal_liquidity_nonneg C p amountIn zeroForOne _ h
  · unfold applySwapWithValidation
    rw [show ∀ (a : Int) (q : PoolState), (a, q).2 = q from fun _ _ => rfl]
    rw [validationRecordPhase_liquidity]
    exact applySwapInternal_liquidity_nonneg C (bumpTotalSwaps p) amountIn
      zeroForOne _ (by rw [bumpTotalSwaps_liquidity]; exact h)
  · rw [applyRepayFlashSwap_liquidity]
    exact h

/-- Witness for C7 on a concrete pool with positive liquidity. -/
theorem C7_liquidity_nonneg_witness :
    0 ≤ cexPoolC1.liquidity ∧
      (0 ≤ (applyLiquidityDelta cexPoolC1 5 10 (-2000)).liquidity ∧
        0 ≤ (applySwap cexConvC1 cexPoolC1 10000 true).2.liquidity ∧
        0 ≤ (applySwapWithValidation cexConvC1 cexPoolC1 10000 true
              (some 3) (some 2) (some 1)).2.liquidity ∧
        0 ≤ (applyRepayFlashSwap cexPoolC1 5 5 7 7
              (some 11) none).liquidity) :=
  ⟨by decide, C7_liquidity_nonneg cexConvC1 cexPoolC1 (by decide)
    5 10 (-2000) 10000 true (some 3) (some 2) (some 1) 5 5 7 7
    (some 11) none⟩

/-- C6 counterexample: on a fresh pool (fees on, liquidity 0, no ticks),
applySwap(10000, true) returns 0 but still accrues the charged fee into
totalSwapFee0, so the state is not unchanged. -/
theorem C6_counterexample :
    cexPoolC6.liquidity = 0 ∧
      (applySwap cexConvC6 cexPoolC6 10000 true).1 = 0 ∧
      (applySwap cexConvC6 cexPoolC6 10000 true).2.totalSwapFee0 ≠
        cexPoolC6.totalSwapFee0 := by
  decide

/-- C6 (amended): for amountIn ≤ 0, applySwap returns 0 and the state is
fully unchanged.  For liquidity = 0, applySwap returns 0 and leaves
sqrtPriceX64, liquidity, ticks, tickBitmap and both fee-growth globals
unchanged, but (contrary to the original claim) the charged fee may still be
added to totalSwapFee0/1, and tickCurrent may be recomputed from the
unchanged price. -/
theorem C6_degenerate_swap (C : FloatConv) (p : PoolState) (amountIn : Int)
    (z : Bool) :
    (amountIn ≤ 0 → applySwap C p amountIn z = (0, p)) ∧
      (p.liquidity = 0 →
        (applySwap C p amountIn z).1 = 0 ∧
        (applySwap C p amountIn z).2.sqrtPriceX64 = p.sqrtPriceX64 ∧
        (applySwap C p amountIn z).2.liquidity = p.liquidity ∧
        (applySwap C p amountIn z).2.ticks = p.ticks ∧
        (applySwap C p amountIn z).2.tickBitmap = p.tickBitmap ∧
        (applySwap C p amountIn z).2.feeGrowthGlobal0X64 = p.feeGrowthGlobal0X64 ∧
        (applySwap C p amountIn z).2.feeGrowthGlobal1X64 = p.feeGrowthGlobal1X64 ∧
        ((applySwap C p amountIn z).2.tickCurrent = p.tickCurrent ∨
          (applySwap C p amountIn z).2.tickCurrent
            = C.sqrtPriceToTick p.sqrtPriceX64)) := by
  constructor
  · intro ha
    unfold applySwap applySwapInternal
    rw [if_pos ha]
  · intro hp
    by_cases ha : amountIn ≤ 0
    · unfold applySwap applySwapInternal
      rw [if_pos ha]
      exact ⟨rfl, rfl, rfl, rfl, rfl, rfl, rfl, Or.inl rfl⟩
    · unfold applySwap applySwapInternal
      rw [if_neg ha]
      have hacc := feeAccrualState_of_liquidity_zero p
        (calculateFees p amountIn) z hp
      obtain ⟨f1, f2, f3, f4, f5, f6, f7⟩ := addTotalSwapFee_frame p
        (calculateFees p amountIn).totalFee z
      by_cases hnet :
          netAmountIn amountIn (calculateFees p amountIn).totalFee = 0
      · rw [if_pos hnet, hacc]
        exact ⟨rfl, f2, f1, f4, f5, f6, f7, Or.inl f3⟩
      · rw [if_neg hnet, hacc]
        unfold runSwapLoop executeCLMMSwap
        obtain ⟨l2, lout, lP, lT⟩ := clmmLoop_liquidity_zero C z
          ((netAmountIn amountIn (calculateFees p amountIn).totalFee).toNat + 1)
          (addTotalSwapFee p (calculateFees p amountIn).totalFee z)
          (netAmountIn amountIn (calculateFees p amountIn).totalFee)
          (addTotalSwapFee p (calculateFees p amountIn).totalFee z).sqrtPriceX64
          (addTotalSwapFee p (calculateFees p amountIn).totalFee z).tickCurrent
          0 (f1.trans hp)
        refine ⟨lout, ?_, ?_, ?_, ?_, ?_, ?_, ?_⟩
        · dsimp only
          rw [lP]
          exact f2
        · dsimp only
          rw [l2]
          exact f1
        · dsimp only
          rw [l2]
          exact f4
        · dsimp only
          rw [l2]
          exact f5
        · dsimp only
          rw [l2]
          exact f6
        · dsimp only
          rw [l2]
          exact f7
        · dsimp only
          rcases lT with hT | hT
          · exact Or.inl (hT.trans f3)
          · refine Or.inr (hT.trans ?_)
            rw [f2]

/-- Witness for C6: both degenerate branches at concrete inputs on the fresh
pool with zero liquidity. -/
theorem C6_degenerate_swap_witness :
    ((-5 : Int) ≤ 0 ∧ applySwap cexConvC6 cexPoolC6 (-5) true = (0, cexPoolC6)) ∧
      (cexPoolC6.liquidity = 0 ∧
        ((applySwap cexConvC6 cexPoolC6 10000 true).1 = 0 ∧
          (applySwap cexConvC6 cexPoolC6 10000 true).2.sqrtPriceX64
            = cexPoolC6.sqrtPriceX64 ∧
          (applySwap cexConvC6 cexPoolC6 10000 true).2.liquidity
            = cexPoolC6.liquidity ∧
          (applySwap cexConvC6 cexPoolC6 10000 true).2.ticks = cexPoolC6.ticks ∧
          (applySwap cexConvC6 cexPoolC6 10000 true).2.tickBitmap
            = cexPoolC6.tickBitmap ∧
          (applySwap cexConvC6 cexPoolC6 10000 true).2.feeGrowthGlobal0X64
            = cexPoolC6.feeGrowthGlobal0X64 ∧
          (applySwap cexConvC6 cexPoolC6 10000 true).2.feeGrowthGlobal1X64
            = cexPoolC6.feeGrowthGlobal1X64 ∧
          ((applySwap cexConvC6 cexPoolC6 10000 true).2.tickCurrent
              = cexPoolC6.tickCurrent ∨
            (applySwap cexConvC6 cexPoolC6 10000 true).2.tickCurrent
              = cexConvC6.sqrtPriceToTick cexPoolC6.sqrtPriceX64))) :=
  ⟨⟨by decide, (C6_degenerate_swap cexConvC6 cexPoolC6 (-5) true).1 (by decide)⟩,
   ⟨by decide, (C6_degenerate_swap cexConvC6 cexPoolC6 10000 true).2 (by decide)⟩⟩

/-- C1 evaluated at a failing input: estimateAmountOut(10000, false) on the
seed pool after applyLiquidityDelta(5, 10, 1000) crosses the initialized
tick 10 inside executeCLMMSwap and permanently changes the pool's active
liquidity from 1_001_000 to 1_000_000, so estimateAmountOut is not pure. -/
theorem C1_estimateAmountOut_mutates_liquidity :
    cexPoolC1.liquidity = 1001000 ∧
      (estimateAmountOut cexConvC1 cexPoolC1 10000 false).2.liquidity = 1000000 ∧
      (estimateAmountOut cexConvC1 cexPoolC1 10000 false).2.liquidity ≠
        cexPoolC1.liquidity := by
  decide

theorem dictLookup_eq_none (l : List (Int × TickData)) (k : Int)
    (h : k ∉ l.map Prod.fst) : dictLookup l k = none := by
  induction l with
  | nil => rfl
  | cons kv rest ih =>
    obtain ⟨k', v'⟩ := kv
    have h1 : ¬ k' = k := fun heq => h (by simp [heq])
    have h2 : k ∉ rest.map Prod.fst := fun hk => h (by simp [hk])
    rw [dictLookup_cons, if_neg h1]
    exact ih h2

theorem foldl_dictInsert_self (l : List (Int × TickData)) :
    ∀ acc : List (Int × TickData), (((acc ++ l).map Prod.fst)).Nodup →
      List.foldl (fun a kv => dictInsert a kv.1 kv.2) acc l = acc ++ l := by
  induction l with
  | nil =>
    intro acc h
    simp
  | cons kv rest ih =>
    obtain ⟨k, v⟩ := kv
    intro acc h
    have hmemk : k ∉ acc.map Prod.fst := by
      rw [List.map_append] at h
      have hd := (List.nodup_append.mp h).2.2
      intro hk
      exact hd hk (by simp)
    have hnone : dictLookup acc k = none := dictLookup_eq_none acc k hmemk
    rw [List.foldl_cons]
    have hins : dictInsert acc k v = acc ++ [(k, v)] := by
      unfold dictInsert
      rw [hnone]
      simp
    rw [hins]
    have hnodup2 : (((acc ++ [(k, v)]) ++ rest).map Prod.fst).Nodup := by
      rw [List.append_assoc]
      exact h
    rw [ih (acc ++ [(k, v)]) hnodup2, List.append_assoc]
    rfl

/-- C5 counterexample: serialize omits validationStats and deserialize
resets the counters, so the validation counters of the round-tripped pool
disagree with those of the original: the pools are distinguishable. -/
theorem C5_counterexample :
    (deserialize (serialize cexPoolC5)).validationStats.totalSwaps ≠
      cexPoolC5.validationStats.totalSwaps := by
  decide

/-- C5 (amended): for every pool state (with the dict property that tick keys
are unique), deserialize(serialize(p)) reproduces p exactly except that
validationStats is reset to the all-zero counters of a fresh pool; every
operation not reading the validation counters therefore behaves identically,
but the validation counters themselves are not preserved. -/
theorem C5_roundtrip (p : PoolState) (h : (p.ticks.map Prod.fst).Nodup) :
    deserialize (serialize p) = { p with validationStats := initialValidationStats } := by
  have hticks : rebuildTicks ((serialize p).ticks) = p.ticks := by
    show rebuildTicks (p.ticks.map (fun kv =>
      ⟨kv.1, kv.2.liquidityNet, kv.2.liquidityGross,
        kv.2.feeGrowthOutside0X64, kv.2.feeGrowthOutside1X64⟩)) = p.ticks
    unfold rebuildTicks
    rw [List.foldl_map]
    exact foldl_dictInsert_self p.ticks [] (by simpa using h)
  refine PoolState.ext ?_ ?_ ?_ ?_ ?_ ?_ ?_ ?_ ?_ ?_ ?_ ?_ ?_ ?_ ?_ ?_ ?_
  · simp [deserialize, serialize, mkPool]
  · simp [deserialize, serialize, mkPool]
  · simp [deserialize, serialize, mkPool]
  · simp [deserialize, serialize, mkPool]
  · simp [deserialize, serialize, mkPool]
  · simp [deserialize, serialize, mkPool]
  · simp [deserialize, serialize, mkPool]
  · simp [deserialize, serialize, mkPool]
  · simp [deserialize, serialize, mkPool]
  · simp [deserialize, serialize, mkPool]
  · show rebuildTicks ((serialize p).ticks) = p.ticks
    exact hticks
  · simp [deserialize, serialize, mkPool]
  · simp [deserialize, serialize, mkPool]
  · simp [deserialize, serialize, mkPool]
  · simp [deserialize, serialize, mkPool]
  · simp [deserialize, serialize, mkPool]
  · simp [deserialize, serialize, mkPool]

/-- Witness for C5 on a pool with two initialized ticks. -/
theorem C5_roundtrip_witness :
    (roundtripPool.ticks.map Prod.fst).Nodup ∧
      deserialize (serialize roundtripPool) =
        { roundtripPool with validationStats := initialValidationStats } :=
  ⟨by decide, C5_roundtrip roundtripPool (by decide)⟩

theorem clmmLoop_fuel_irrelevant (C : FloatConv) (z : Bool) :
    ∀ (fuel₁ fuel₂ : Nat) (p : PoolState) (r cp ct acc : Int),
      r.toNat < fuel₁ → r.toNat < fuel₂ →
      clmmLoop C z fuel₁ p r cp ct acc = clmmLoop C z fuel₂ p r cp ct acc := by
  intro fuel₁
  induction fuel₁ with
  | zero =>
    intro fuel₂ p r cp ct acc h1 h2
    omega
  | succ n ih =>
    intro fuel₂ p r cp ct acc h1 h2
    cases fuel₂ with
    | zero => omega
    | succ m =>
      by_cases hr : r ≤ 0
      · simp only [clmmLoop, if_pos hr]
      · simp only [clmmLoop, if_neg hr]
        cases hnt : getNextTick p ct z with
        | none => rfl
        | some nt =>
          dsimp only
          by_cases hm : calculateMaxSwapAtPrice C p cp nt z ≤ 0
          · rw [if_pos hm, if_pos hm]
          · rw [if_neg hm, if_neg hm]
            by_cases hr2 : r ≤ calculateMaxSwapAtPrice C p cp nt z
            · rw [if_pos hr2, if_pos hr2]
            · rw [if_neg hr2, if_neg hr2]
              apply ih
              · omega
              · omega
